import Mathlib

/-!
Verification development for the fDOG taxon-ingestion scripts
(`fdog/addTaxon.py`, `fdog/addTaxa.py`).

Python strings are modelled as `List Char` (the programs only handle
ASCII FASTA data, where Lean's `Char.isAlpha`, `Char.toUpper`,
`Char.isWhitespace` coincide with Python's `str.isalpha`, `str.upper`
and the regex classes `[a-zA-Z]`, `\s` used by the source).
File-system effects are modelled by explicit state records and action
traces; external collaborators (NCBI taxonomy, makeblastdb, fas.doAnno)
appear as opaque trace events or as an `Option`-valued lookup result.
-/

namespace FDog

/-- Python `c.isalpha()` / the regex class `[a-zA-Z]` on ASCII input. -/
def isAlphaC (c : Char) : Bool := c.isAlpha

/-- Python whitespace (the ASCII part of `str.split()` / regex `\s`):
space, tab, newline, carriage return, vertical tab, form feed. -/
def isPySpace (c : Char) : Bool :=
  c == ' ' || c == '\t' || c == '\n' || c == '\r' || c == '\x0b' || c == '\x0c'

/-- Python `s.upper()` on one ASCII character. -/
def upChar (c : Char) : Char := c.toUpper

/-! ## Identity Resolver: `getTaxName` (addTaxon.py 74-83, addTaxa.py 48-57) -/

/-- Characters kept by `re.sub('[^a-zA-Z1-9\\s]+', '', ncbiName)`:
letters, the digits 1-9 (note: not 0), and whitespace. -/
def keepChar (c : Char) : Bool :=
  isAlphaC c || ('1' ≤ c && c ≤ '9') || isPySpace c

/-- The `re.sub('[^a-zA-Z1-9\\s]+', '', ncbiName)` cleaning step:
deleting every maximal run of non-kept characters is filtering. -/
def cleanName (s : List Char) : List Char := s.filter keepChar

/-- Python `str.split()` with no argument: split on whitespace runs,
dropping empty fields. -/
def pySplit (s : List Char) : List (List Char) :=
  (s.splitOnP (isPySpace · = true)).filter (· ≠ [])

/-- `getTaxName(taxId)` (addTaxon.py 74-83 = addTaxa.py 48-57).
The NCBI lookup is modelled by its result: `some ncbiName` when
`get_taxid_translator` resolves the id, `none` otherwise.  A name with
fewer than two whitespace tokens makes `taxName[1]` raise `IndexError`,
caught by the bare `except BaseException`, which also yields the
`"UNK" + taxId` fallback. -/
def getTaxName (lookupName : Option (List Char)) (taxId : List Char) : List Char :=
  match lookupName with
  | none => "UNK".toList ++ taxId
  | some ncbiName =>
    match pySplit (cleanName ncbiName) with
    | t0 :: t1 :: _ => (t0.take 3).map upChar ++ (t1.take 2).map upChar
    | _ => "UNK".toList ++ taxId

/-! ## Sequence Normalizer: the per-record body of the FASTA loop
(addTaxon.py 237-277) -/

/-- The error/exit conditions reachable from the per-record loop body. -/
inductive RecErr where
  /-- `sys.exit` at addTaxon.py 242: the id contains a space. -/
  | idSpace (id : List Char)
  /-- `seq[-1]` at addTaxon.py 262 raises `IndexError` on an empty
  residue string. -/
  | emptySeqIndex
  /-- `sys.exit` at addTaxon.py 274: special character under the
  reject policy (neither `--replace` nor `--delete`). -/
  | specialChar (id : List Char)
deriving DecidableEq, Repr

/-- Whether `id` contains the two-character substring `\|`
(backslash, pipe): this is what the Python test `'\\|' in id`
at addTaxon.py 246 checks, since `'\\|'` is plain `in` on the
two-character string, not a regex. -/
def hasBackslashPipe : List Char → Bool
  | [] => false
  | ['\\'] => false
  | '\\' :: '|' :: _ => true
  | _ :: rest => hasBackslashPipe rest

/-- `re.sub('\\|', '_', id)` (addTaxon.py 249): the regex `\|` matches a
literal pipe, so every pipe becomes an underscore. -/
def rewritePipes (id : List Char) : List Char :=
  id.map (fun c => if c = '|' then '_' else c)

/-- The id checks of the loop body (addTaxon.py 241-249): exit if the id
contains a space; otherwise, only when the id contains the literal
substring `\|`, warn and rewrite pipes to underscores. -/
def checkId (id : List Char) : Except RecErr (List Char) :=
  if id.contains ' ' then .error (.idSpace id)
  else if hasBackslashPipe id then .ok (rewritePipes id)
  else .ok id

/-- `if seq[-1] == '*': seq = seq[:-1]` (addTaxon.py 262-263).
On an empty string `seq[-1]` raises `IndexError` (uncaught). -/
def stripTrailingStar (seq : List Char) : Except RecErr (List Char) :=
  match seq.getLast? with
  | none => .error .emptySeqIndex
  | some c => .ok (if c = '*' then seq.dropLast else seq)

/-- The alphabet check and sanitization (addTaxon.py 264-276): if the
(stripped) residues contain a non-alphabetic character, then under
`--replace` substitute `X`, under `--delete` drop them (applied in that
order, as in the source), and with neither flag exit fatally. -/
def sanitizeSeq (replace delete : Bool) (id seq : List Char) :
    Except RecErr (List Char) :=
  if seq.any (fun c => ! isAlphaC c) then
    if replace || delete then
      let s1 := if replace then seq.map (fun c => if isAlphaC c then c else 'X') else seq
      let s2 := if delete then s1.filter (isAlphaC ·) else s1
      .ok s2
    else .error (.specialChar id)
  else .ok seq

/-- The residue processing of one record (addTaxon.py 261-276):
trailing-stop strip, then alphabet check and sanitization. -/
def normResidues (replace delete : Bool) (id seq : List Char) :
    Except RecErr (List Char) := do
  let s1 ← stripTrailingStar seq
  sanitizeSeq replace delete id s1

/-- The total version of the trailing-stop strip, agreeing with
`stripTrailingStar` on non-empty residue strings (used to state
theorems). -/
def pyStripStar (s : List Char) : List Char :=
  if s.getLast? = some '*' then s.dropLast else s

/-- One iteration of `for id in inSeq` (addTaxon.py 237-277), up to the
write: id checks, trailing-stop strip, alphabet sanitization. -/
def processRecord (replace delete : Bool) (r : List Char × List Char) :
    Except RecErr (List Char × List Char) := do
  let id ← checkId r.1
  let s2 ← normResidues replace delete id r.2
  pure (id, s2)

/-- `f.write('>%s\n%s\n' % (id, seq))` (addTaxon.py 277). -/
def renderRec (id seq : List Char) : List Char :=
  '>' :: (id ++ '\n' :: (seq ++ ['\n']))

/-- The content contributed by one record, empty if it errors
(used only to state what a failed run has already written). -/
def renderProcessed (replace delete : Bool) (r : List Char × List Char) : List Char :=
  match processRecord replace delete r with
  | .ok (i, s) => renderRec i s
  | .error _ => []

/-- Running the write loop over the records in dictionary order:
returns the file content produced before the first failing record and
the error of that record, if any.  Mirrors that addTaxon.py writes each
record as it goes, so records preceding a fatal one are already in the
file when `sys.exit` fires. -/
def writeLoop (replace delete : Bool) :
    List (List Char × List Char) → List Char × Option RecErr
  | [] => ([], none)
  | r :: rest =>
    match processRecord replace delete r with
    | .error e => ([], some e)
    | .ok (i, s) =>
      let (tail, err) := writeLoop replace delete rest
      (renderRec i s ++ tail, err)

/-- Outcome of writing the canonical FASTA file (addTaxon.py 231-282):
the file content, whether the `.checked` completion marker was written
(only after the loop finishes, addTaxon.py 280-282), and the error that
aborted the loop, if any. -/
structure WriteResult where
  content : List Char
  checked : Bool
  err : Option RecErr
deriving DecidableEq, Repr

/-- The whole `open(specFile, 'w')` … loop … `.checked` block
(addTaxon.py 231-282). -/
def writeFasta (replace delete : Bool) (recs : List (List Char × List Char)) :
    WriteResult :=
  let (c, e) := writeLoop replace delete recs
  { content := c, checked := e.isNone, err := e }

/-! ## `SeqIO.to_dict` (addTaxon.py 227)

Biopython's `SeqIO.to_dict` inserts each record into a dict keyed by
`record.id` (the first whitespace token of the header) and raises
`ValueError("Duplicate key ...")` when a key repeats; on success the
dict preserves insertion order.  We model it as the identity on the
record list, failing exactly when an id repeats. -/

/-- Helper for `toDict`: fails when a record id is in `seen` or repeats
later in the list. -/
def toDictAux (seen : List (List Char)) :
    List (List Char × List Char) → Except Unit (List (List Char × List Char))
  | [] => .ok []
  | (i, s) :: rest =>
    if i ∈ seen then .error ()
    else (toDictAux (i :: seen) rest).map ((i, s) :: ·)

/-- `SeqIO.to_dict(SeqIO.parse(...))` (addTaxon.py 227): the ordered
record list, or a duplicate-key `ValueError` that crashes the script
before the output file is opened. -/
def toDict (recs : List (List Char × List Char)) :
    Except Unit (List (List Char × List Char)) :=
  toDictAux [] recs

/-! ## Record Store Manager: the genome-dir file block
(addTaxon.py 227-287) -/

/-- The state of one taxon's entry in the genome store:
the canonical FASTA file content (`none` when the file is absent) and
the `.checked` marker content (a timestamp, `none` when absent). -/
structure DirState where
  fa : Option (List Char)
  checked : Option Nat
deriving DecidableEq, Repr

/-- Errors that abort the materialization block. -/
inductive MatErr where
  /-- `ValueError` from `SeqIO.to_dict` on a duplicate record id. -/
  | dupKey
  /-- A fatal per-record error inside the write loop. -/
  | recFail (e : RecErr)
deriving DecidableEq, Repr

/-- The `genome_dir` file block of addTaxon.py (lines 227-287), acting
on the taxon's directory state `d`:
parse the FASTA into a dict (may crash on duplicate ids, before the
output file is opened); then, unless the file exists non-empty and
`force` is unset (idempotent skip, line 286-287), open the file for
writing (truncating it), write the records, and write the `.checked`
marker only after the loop completes.  On a mid-loop `sys.exit` the
records already written remain in the file and the old `.checked`
marker (if any) is untouched. -/
def materializeDir (force replace delete : Bool)
    (recs : List (List Char × List Char)) (now : Nat) (d : DirState) :
    DirState × Option MatErr :=
  match toDict recs with
  | .error _ => (d, some .dupKey)
  | .ok rs =>
    let doWrite :=
      match d.fa with
      | none => true
      | some content => content.isEmpty || force
    if doWrite then
      let w := writeFasta replace delete rs
      match w.err with
      | none => ({ fa := some w.content, checked := some now }, none)
      | some e => ({ fa := some w.content, checked := d.checked }, some (.recFail e))
    else (d, none)

/-! ## Conflicting policy flags: `checkOptConflict` (addTaxon.py 44-52) -/

/-- `checkOptConflict(replace, delete)` (addTaxon.py 44-52): returns
`true` when the function calls `sys.exit` (both flags set; the source
tests the pair twice, redundantly). -/
def checkOptConflict (replace delete : Bool) : Bool :=
  if delete then
    (if replace then true else false)
  else if replace then
    (if delete then true else false)
  else false

/-! ## Force-overwrite deletion phase (addTaxon.py 214-219) -/

/-- Presence of per-taxon directories in the three stores, indexed by
the serialized taxon key (the folder name). -/
structure StoreView where
  genome : String → Bool
  blast : String → Bool
  weight : String → Bool

/-- The remove-old-folder block of addTaxon.py (lines 214-219): when
`force` is set, delete `genome_dir/<specName>` and `blast_dir/<specName>`
if they exist (afterwards both are absent either way); `weight_dir` is
not touched by this script. -/
def addTaxonForceDelete (force : Bool) (specName : String) (st : StoreView) :
    StoreView :=
  if force then
    { genome := fun n => if n = specName then false else st.genome n
      blast := fun n => if n = specName then false else st.blast n
      weight := st.weight }
  else st

/-! ## Single-Taxon Pipeline trace (addTaxon.py `main`, lines 177-318) -/

/-- Configuration of one `fdog.addTaxon` run, after argument parsing.
The input FASTA is represented by its existence flag and its parsed
record list (first-token id, residues); the NCBI name lookup by its
`Option` result. -/
structure Cfg where
  fastaExists : Bool
  recs : List (List Char × List Char)
  nameArg : List Char
  lookupName : Option (List Char)
  taxId : List Char
  force : Bool
  replace : Bool
  delete : Bool
  coreTaxa : Bool
  noAnno : Bool

/-- Observable actions of one `fdog.addTaxon` run, in program order. -/
inductive AAction where
  /-- A query to the NCBI taxonomy collaborator
  (`checkTaxId`, or `getTaxName` when no name is given). -/
  | queryTaxonomy
  /-- `shutil.rmtree` of the taxon's genome directory (line 217). -/
  | rmGenomeDir
  /-- `shutil.rmtree` of the taxon's blast directory (line 219). -/
  | rmBlastDir
  /-- `mkdir` of `genome_dir` and of the taxon folder (lines 223-225). -/
  | mkdirGenome
  /-- Opening the canonical FASTA for (truncating) write (line 231). -/
  | openFasta
  /-- Writing the `.checked` marker (lines 280-282). -/
  | writeChecked
  /-- `mkdir blast_dir` and the `makeblastdb` collaborator call
  (lines 290-298). -/
  | callBlast
  /-- `mkdir weight_dir` and the `fas.doAnno` collaborator call
  (lines 303-314). -/
  | callAnno
deriving DecidableEq, Repr

/-- Exit causes of one `fdog.addTaxon` run. -/
inductive AExit where
  /-- `checkFileExist` failed (line 179). -/
  | fastaNotFound
  /-- `checkOptConflict` failed: both `--replace` and `--delete`
  (line 204). -/
  | optConflict
  /-- Duplicate record id in `SeqIO.to_dict` (line 227). -/
  | dupKey
  /-- Fatal per-record error in the write loop. -/
  | recFail (e : RecErr)
deriving DecidableEq, Repr

/-- One `fdog.addTaxon` run (addTaxon.py `main`, lines 177-318) over an
initial taxon-directory state and blast-store flags, returning the
trace of observable actions in order and the exit cause if the run
aborted.  Mirrors the source's order: input-file check, option-conflict
check, taxonomy queries, force-deletion, directory creation, FASTA
materialization, optional blast build, optional annotation. -/
def addTaxonRun (c : Cfg) (d0 : DirState) (dirExists blastIdxExists : Bool) :
    List AAction × Option AExit :=
  if ¬ c.fastaExists then ([], some .fastaNotFound)
  else if checkOptConflict c.replace c.delete then ([], some .optConflict)
  else
    let qacts := AAction.queryTaxonomy ::
      (if c.nameArg = [] then [AAction.queryTaxonomy] else [])
    let (dacts, d1, blast1) :=
      if c.force then
        ((if dirExists then [AAction.rmGenomeDir] else []) ++
          (if blastIdxExists then [AAction.rmBlastDir] else []),
         ({ fa := none, checked := none } : DirState), false)
      else ([], d0, blastIdxExists)
    let macts := [AAction.mkdirGenome]
    match toDict c.recs with
    | .error _ => (qacts ++ dacts ++ macts, some .dupKey)
    | .ok rs =>
      let doWrite :=
        match d1.fa with
        | none => true
        | some content => content.isEmpty || c.force
      let (wacts, werr) :=
        if doWrite then
          let w := writeFasta c.replace c.delete rs
          match w.err with
          | none => ([AAction.openFasta, AAction.writeChecked], (none : Option RecErr))
          | some e => ([AAction.openFasta], some e)
        else ([], none)
      match werr with
      | some e => (qacts ++ dacts ++ macts ++ wacts, some (.recFail e))
      | none =>
        let bacts := if c.coreTaxa then
            (if !blast1 || c.force then [AAction.callBlast] else []) else []
        let aacts := if ¬ c.noAnno then [AAction.callAnno] else []
        (qacts ++ dacts ++ macts ++ wacts ++ bacts ++ aacts, none)

/-! ## Batch Orchestrator (addTaxa.py `main`, lines 166-249) -/

/-- Configuration of one `fdog.addTaxa` run, after argument parsing.
`faFiles` are the plain files found in the input folder (line 200);
`nameDict` maps an input filename to its serialized taxon key
`name@taxid@version` (`'@'.join(nameDict[f])`, line 205) as produced by
`parseMapFile`; `genomeFiles` is the folder listing of `genome_dir`
taken once before the loop (line 192). -/
structure BatchCfg where
  mappingExists : Bool
  faFiles : List String
  nameDict : List (String × String)
  genomeFiles : List String
  force : Bool
  noAnno : Bool
  replace : Bool
  delete : Bool

/-- Observable actions of one `fdog.addTaxa` run, in program order. -/
inductive BAction where
  /-- `mkdir genome_dir` (line 190). -/
  | mkdirGenomeRoot
  /-- `mkdir weight_dir` (line 191). -/
  | mkdirWeightRoot
  /-- `shutil.rmtree` of `genome_dir/<key>` (line 209). -/
  | rmGenome (key : String)
  /-- `shutil.rmtree` of `weight_dir/<key>` (line 211). -/
  | rmWeight (key : String)
  /-- `runAddTaxon` dispatch of one per-taxon job (line 247), with the
  filename, serialized key and the sanitize flags forwarded to the
  child `fdog.addTaxon` process. -/
  | runJob (file key : String) (replace delete : Bool)
deriving DecidableEq, Repr

/-- Exit causes of one `fdog.addTaxa` run. -/
inductive BExit where
  /-- `checkFileExist(mapping)` failed (line 169). -/
  | mappingNotFound
  /-- The `sys.exit` at line 241: duplicates found and `force` unset;
  carries `dupList` as the association filename ↦ key printed at
  lines 236-237. -/
  | dupAbort (dups : List (String × String))
deriving DecidableEq, Repr

/-- The per-file job-collection loop of addTaxa.py (lines 201-230):
for each input file with a manifest entry, if its key is already among
the pre-existing `genomeFiles` then under `force` delete the genome
(and, unless `noAnno`, weight) directories and still queue the job,
otherwise only record the duplicate; keys not present in the
pre-existing listing are queued unconditionally.  Returns the deletion
actions, `dupList`, and the queued jobs, each in loop order. -/
def batchCollect (force noAnno : Bool) (genomeFiles : List String)
    (nameDict : List (String × String)) :
    List String → List BAction × List (String × String) × List String
  | [] => ([], [], [])
  | f :: rest =>
    let r := batchCollect force noAnno genomeFiles nameDict rest
    match nameDict.lookup f with
    | none => r
    | some key =>
      if key ∈ genomeFiles then
        if force then
          ((BAction.rmGenome key ::
             (if !noAnno then [BAction.rmWeight key] else [])) ++ r.1,
           (f, key) :: r.2.1, f :: r.2.2)
        else (r.1, (f, key) :: r.2.1, r.2.2)
      else (r.1, r.2.1, f :: r.2.2)

/-- One `fdog.addTaxa` run (addTaxa.py `main`, lines 166-249): after the
mapping-file check, create the root `genome_dir` and `weight_dir`
(line 190-191), collect jobs and duplicates, abort if duplicates were
found and `force` is unset (line 241), and otherwise dispatch every
queued job sequentially.  No option-conflict check is performed by this
script; the sanitize flags are forwarded verbatim to each child. -/
def addTaxaRun (c : BatchCfg) : List BAction × Option BExit :=
  if ¬ c.mappingExists then ([], some .mappingNotFound)
  else
    let roots := [BAction.mkdirGenomeRoot, BAction.mkdirWeightRoot]
    let r := batchCollect c.force c.noAnno c.genomeFiles c.nameDict c.faFiles
    if r.2.1 ≠ [] ∧ ¬ c.force then (roots ++ r.1, some (.dupAbort r.2.1))
    else
      (roots ++ r.1 ++ r.2.2.map (fun f =>
        BAction.runJob f ((c.nameDict.lookup f).getD "") c.replace c.delete), none)

/-! ## Helper lemmas -/

/-- Uppercasing an ASCII letter yields an uppercase letter. -/
theorem upChar_isUpper {c : Char} (h : isAlphaC c = true) :
    (upChar c).isUpper = true := by
  have h' : c.isUpper = true ∨ c.isLower = true := by
    have h2 := h
    simp only [isAlphaC, Char.isAlpha, Bool.or_eq_true] at h2
    exact h2
  rcases h' with hu | hl
  · have h1 : 65 ≤ c.toNat ∧ c.toNat ≤ 90 := by
      simp only [Char.isUpper, Bool.and_eq_true, decide_eq_true_eq] at hu
      exact ⟨hu.1, hu.2⟩
    have hnl : ¬ (c.toNat ≥ 97 ∧ c.toNat ≤ 122) := by omega
    show (Char.toUpper c).isUpper = true
    unfold Char.toUpper
    simp only [if_neg hnl]
    exact hu
  · have h1 : 97 ≤ c.toNat ∧ c.toNat ≤ 122 := by
      simp only [Char.isLower, Bool.and_eq_true, decide_eq_true_eq] at hl
      exact ⟨hl.1, hl.2⟩
    have key : ∀ n, 97 ≤ n → n ≤ 122 → (Char.ofNat (n - 32)).isUpper = true := by
      intro n hn1 hn2
      interval_cases n <;> decide
    show (Char.toUpper c).isUpper = true
    unfold Char.toUpper
    simp only [if_pos (⟨h1.1, h1.2⟩ : c.toNat ≥ 97 ∧ c.toNat ≤ 122)]
    exact key c.toNat h1.1 h1.2

/-- On a non-empty residue string the stop-marker strip does not fail and
computes `pyStripStar`. -/
theorem stripTrailingStar_of_ne_nil {s : List Char} (h : s ≠ []) :
    stripTrailingStar s = .ok (pyStripStar s) := by
  rcases hl : s.getLast? with _ | c
  · exact absurd (List.getLast?_eq_none_iff.1 hl) h
  · simp [stripTrailingStar, pyStripStar, hl]

/-- Replacing non-alphabetic characters is the identity on an
all-alphabetic string. -/
theorem map_alpha_id {t : List Char} (h : ∀ c ∈ t, isAlphaC c = true) :
    t.map (fun c => if isAlphaC c then c else 'X') = t := by
  induction t with
  | nil => rfl
  | cons c cs ih =>
    simp only [List.map_cons, if_pos (h c (List.mem_cons_self c cs)),
      List.cons.injEq, true_and]
    exact ih (fun x hx => h x (List.mem_cons_of_mem c hx))

/-! ## The claims -/

/-- Claim C3 (code bug): for the header `>seq1|domainA description text`
the stored id should be `seq1_domainA` (the code's own warning message
and the substitution on addTaxon.py 249 intend to rewrite pipes to
underscores), but the guard at addTaxon.py 246 tests for the literal
two-character substring backslash-pipe, which a plain pipe never
matches, so the id is stored unchanged as `seq1|domainA`. -/
theorem claim3_pipe_guard_never_fires :
    checkId "seq1|domainA".toList = .ok "seq1|domainA".toList ∧
    rewritePipes "seq1|domainA".toList = "seq1_domainA".toList := by
  exact ⟨rfl, rfl⟩

/-- Claim C7, counterexample: the scientific name `Ab cd` has two word
tokens after cleaning, yet `getTaxName` produces `ABCD`, which has 4
characters, not the claimed exactly 5 — the source takes at most 3 and
at most 2 characters of the tokens. -/
theorem claim7_counterexample :
    (pySplit (cleanName "Ab cd".toList)).length = 2 ∧
    (getTaxName (some "Ab cd".toList) "9606".toList).length = 4 := by
  exact ⟨rfl, rfl⟩

/-- Claim C7 as amended: for a resolvable scientific name whose cleaned
form splits into word tokens `t0 :: t1 :: _`, `getTaxName` returns
`upper(first3 t0) ++ upper(first2 t1)`; the result has exactly 5
characters when `t0` has at least 3 and `t1` at least 2 characters, and
all its characters are uppercase letters when the tokens are
alphabetic (the cleaning step also keeps digits 1-9, which would
survive into the name). -/
theorem claim7_amended (nm tid t0 t1 : List Char) (rest : List (List Char))
    (hs : pySplit (cleanName nm) = t0 :: t1 :: rest)
    (h0 : 3 ≤ t0.length) (h1 : 2 ≤ t1.length)
    (ha : ∀ c ∈ t0, isAlphaC c = true) (hb : ∀ c ∈ t1, isAlphaC c = true) :
    getTaxName (some nm) tid = (t0.take 3).map upChar ++ (t1.take 2).map upChar ∧
    (getTaxName (some nm) tid).length = 5 ∧
    ∀ c ∈ getTaxName (some nm) tid, c.isUpper = true := by
  have he : getTaxName (some nm) tid =
      (t0.take 3).map upChar ++ (t1.take 2).map upChar := by
    simp [getTaxName, hs]
  refine ⟨he, ?_, ?_⟩
  · rw [he, List.length_append, List.length_map, List.length_map,
      List.length_take, List.length_take, Nat.min_eq_left h0, Nat.min_eq_left h1]
  · rw [he]
    intro c hc
    rcases List.mem_append.1 hc with hmem | hmem
    · rcases List.mem_map.1 hmem with ⟨x, hx, rfl⟩
      exact upChar_isUpper (ha x (List.take_subset _ _ hx))
    · rcases List.mem_map.1 hmem with ⟨x, hx, rfl⟩
      exact upChar_isUpper (hb x (List.take_subset _ _ hx))

/-- Witness for C7 as amended, at the name `Homo sapiens`. -/
theorem claim7_amended_witness :
    getTaxName (some "Homo sapiens".toList) "9606".toList =
      ("Homo".toList.take 3).map upChar ++ ("sapiens".toList.take 2).map upChar ∧
    (getTaxName (some "Homo sapiens".toList) "9606".toList).length = 5 := by
  have h := claim7_amended "Homo sapiens".toList "9606".toList
    "Homo".toList "sapiens".toList [] (by decide) (by decide) (by decide)
    (by decide) (by decide)
  exact ⟨h.1, h.2.1⟩

/-- Claim C8: under the Replace policy the residue processing strips one
trailing `*` and then substitutes `X` for every remaining
non-alphabetic character (when nothing needs substituting the string is
returned unchanged, which coincides with the substitution). -/
theorem claim8_replace_policy (id s : List Char) (h : s ≠ []) :
    normResidues true false id s =
      .ok ((pyStripStar s).map (fun c => if isAlphaC c then c else 'X')) := by
  unfold normResidues
  rw [stripTrailingStar_of_ne_nil h]
  show sanitizeSeq true false id (pyStripStar s) = _
  by_cases h2 : (pyStripStar s).any (fun c => ! isAlphaC c) = true
  · simp [sanitizeSeq, h2]
  · simp only [sanitizeSeq, h2, Bool.false_eq_true, if_false, Except.ok.injEq]
    have hall : ∀ c ∈ pyStripStar s, isAlphaC c = true := by
      intro c hc
      have := (List.any_eq_false).1 (Bool.eq_false_iff.2 h2) c hc
      simpa using this
    rw [map_alpha_id hall]

/-- Witness for C8: the spec's own example, `MKV1X*` normalizes to
`MKVXX` under Replace. -/
theorem claim8_replace_policy_witness :
    normResidues true false "s1".toList "MKV1X*".toList = .ok "MKVXX".toList := by
  rw [claim8_replace_policy "s1".toList "MKV1X*".toList (by decide)]
  rfl

/-- Claim C10: a record with an empty residue string makes the loop body
hit the unguarded `seq[-1]` (addTaxon.py 262), i.e. the embedding's
out-of-bounds error branch is reached, for any alphabet policy and any
id that passes the space check. -/
theorem claim10_empty_residues (rp dl : Bool) (id : List Char)
    (h : ' ' ∉ id) :
    processRecord rp dl (id, []) = .error .emptySeqIndex := by
  cases hb : hasBackslashPipe id <;>
      simp [processRecord, checkId, h, hb, normResidues, stripTrailingStar] <;>
    rfl

/-- Witness for C10, at a concrete record `(seq1, empty)`. -/
theorem claim10_empty_residues_witness :
    processRecord false false ("seq1".toList, []) = .error .emptySeqIndex :=
  claim10_empty_residues false false "seq1".toList (by decide)

/-- The write loop over a prefix of successfully processed records
followed by anything: the prefix is rendered into the file and the rest
of the loop continues after it. -/
theorem writeLoop_ok_prefix (rp dl : Bool)
    (pre rest : List (List Char × List Char))
    (hpre : ∀ x ∈ pre, ∃ v, processRecord rp dl x = .ok v) :
    writeLoop rp dl (pre ++ rest) =
      ((pre.map (renderProcessed rp dl)).flatten ++ (writeLoop rp dl rest).1,
       (writeLoop rp dl rest).2) := by
  induction pre with
  | nil => simp
  | cons r pre' ih =>
    obtain ⟨v, hv⟩ := hpre r (List.mem_cons_self r pre')
    have ih' := ih (fun x hx => hpre x (List.mem_cons_of_mem r hx))
    simp only [List.cons_append, writeLoop, hv, renderProcessed,
      List.map_cons, List.flatten_cons, List.append_assoc]
    cases v with
    | mk i s =>
      simp [hv]
      exact ⟨by rw [ih'], by rw [ih']⟩

/-- Claim C2, counterexample: under the Reject policy, with the input
records `(a, MKV)` then `(b, M1)`, materializing into a fresh taxon
directory fails on the second record but the canonical FASTA file
already holds the first record's content — partial FASTA output exists
after the failure (only the `.checked` marker is absent). -/
theorem claim2_counterexample :
    materializeDir false false false
      [("a".toList, "MKV".toList), ("b".toList, "M1".toList)] 7
      ⟨none, none⟩ =
      (⟨some ">a\nMKV\n".toList, none⟩,
       some (.recFail (.specialChar "b".toList))) := by
  rfl

/-- Claim C2 as amended: under the Reject policy, normalization fails at
the first record whose processing errors; at that moment the FASTA
content written is exactly the rendering of the preceding records and
the completion marker has not been written.  In particular, when the
offending record comes first, no content has been written — but when it
comes later, partial FASTA output does exist. -/
theorem claim2_amended (pre post : List (List Char × List Char))
    (r : List Char × List Char) (e : RecErr)
    (hpre : ∀ x ∈ pre, ∃ v, processRecord false false x = .ok v)
    (hr : processRecord false false r = .error e) :
    writeFasta false false (pre ++ r :: post) =
      ⟨(pre.map (renderProcessed false false)).flatten, false, some e⟩ := by
  have h1 := writeLoop_ok_prefix false false pre (r :: post) hpre
  have h2 : writeLoop false false (r :: post) = ([], some e) := by
    simp [writeLoop, hr]
  rw [h2] at h1
  simp [writeFasta, h1]

/-- Witness for C2 as amended, at the same two-record input as the
counterexample (good record then offending record). -/
theorem claim2_amended_witness :
    writeFasta false false
      [("a".toList, "MKV".toList), ("b".toList, "M1".toList)] =
      ⟨([("a".toList, "MKV".toList)].map (renderProcessed false false)).flatten,
       false, some (.specialChar "b".toList)⟩ := by
  exact claim2_amended [("a".toList, "MKV".toList)] []
    ("b".toList, "M1".toList) (.specialChar "b".toList)
    (by intro x hx; simp at hx; subst hx; exact ⟨_, rfl⟩) rfl

/-- Duplicate record ids make the dict construction fail, whatever has
been seen so far. -/
theorem toDictAux_error (recs : List (List Char × List Char))
    (seen : List (List Char))
    (h : ¬ (recs.map Prod.fst).Nodup ∨ ∃ x ∈ recs.map Prod.fst, x ∈ seen) :
    toDictAux seen recs = .error () := by
  induction recs generalizing seen with
  | nil =>
    rcases h with h | ⟨x, hx, _⟩
    · exact absurd List.nodup_nil h
    · simp at hx
  | cons p rest ih =>
    by_cases hmem : p.1 ∈ seen
    · simp [toDictAux, hmem]
    · have hrec : toDictAux (p.1 :: seen) rest = .error () := by
        apply ih
        rcases h with h | ⟨x, hx, hxs⟩
        · rw [List.map_cons, List.nodup_cons] at h
          push_neg at h
          by_cases hin : p.1 ∈ rest.map Prod.fst
          · exact Or.inr ⟨p.1, hin, List.mem_cons_self _ _⟩
          · exact Or.inl (h hin)
        · rcases List.mem_cons.1 hx with rfl | hx'
          · exact absurd hxs hmem
          · exact Or.inr ⟨x, hx', List.mem_cons_of_mem _ hxs⟩
      simp [toDictAux, hmem, hrec, Except.map]

/-- Claim C5, counterexample: two records with the same first-token id
`s1` do not succeed with last-write-wins — `SeqIO.to_dict` raises a
duplicate-key error, the run dies before the output file is opened, and
the taxon directory is unchanged. -/
theorem claim5_counterexample :
    materializeDir false false false
      [("s1".toList, "MK".toList), ("s1".toList, "MV".toList)] 0
      ⟨none, none⟩ = (⟨none, none⟩, some .dupKey) := by
  rfl

/-- Claim C5 as amended: an input file containing two records with the
same first-token id makes `SeqIO.to_dict` raise a duplicate-key error
(addTaxon.py 227), a crash that happens before the canonical FASTA file
is opened — the directory state is unchanged, and neither renumbering
nor last-write-wins occurs. -/
theorem claim5_amended (recs : List (List Char × List Char))
    (force rp dl : Bool) (now : Nat) (d : DirState)
    (hdup : ¬ (recs.map Prod.fst).Nodup) :
    materializeDir force rp dl recs now d = (d, some .dupKey) := by
  have he : toDict recs = .error () :=
    toDictAux_error recs [] (Or.inl hdup)
  simp [materializeDir, he]

/-- Witness for C5 as amended, at a concrete duplicated input. -/
theorem claim5_amended_witness :
    materializeDir true false false
      [("s1".toList, "MK".toList), ("s1".toList, "MV".toList)] 3
      ⟨some ">x\nM\n".toList, some 1⟩ =
      (⟨some ">x\nM\n".toList, some 1⟩, some .dupKey) :=
  claim5_amended _ true false false 3 _ (by decide)

/-- C9: a successful `materialize` whose canonical FASTA file ended up
non-empty is idempotent under `force = false`: the second call with the
same input takes the short-circuit branch (addTaxon.py 229-230, 286-287)
and returns the directory state unchanged, byte for byte (FASTA file
and `.checked` marker included), with no error. -/
theorem claim9_materialize_idempotent (rp dl : Bool)
    (recs : List (List Char × List Char)) (n1 n2 : Nat)
    (d0 d1 : DirState) (c0 : List Char)
    (h1 : materializeDir false rp dl recs n1 d0 = (d1, none))
    (hfa : d1.fa = some c0) (hne : c0 ≠ []) :
    materializeDir false rp dl recs n2 d1 = (d1, none) := by
  rcases htd : toDict recs with u | rs
  · rw [materializeDir, htd] at h1
    simp at h1
  · have hemp : c0.isEmpty = false := by
      cases c0
      · exact absurd rfl hne
      · rfl
    rw [materializeDir, htd]
    simp [hfa, hemp]

/-- Witness for C9: materializing `(a, MKV)` into an empty directory and
then calling materialize again with `force = false`. -/
theorem claim9_materialize_idempotent_witness :
    materializeDir false false false [("a".toList, "MKV".toList)] 1
      ⟨some ">a\nMKV\n".toList, some 0⟩ =
      (⟨some ">a\nMKV\n".toList, some 0⟩, none) :=
  claim9_materialize_idempotent false false [("a".toList, "MKV".toList)] 0 1
    ⟨none, none⟩ ⟨some ">a\nMKV\n".toList, some 0⟩ ">a\nMKV\n".toList
    (by rfl) (by rfl) (by decide)

/-! ## C4, C6, C1 -/

/-- A sample store with one taxon present in all three stores. -/
def sampleStore : StoreView :=
  ⟨fun n => n == "A@9606@1", fun n => n == "A@9606@1", fun n => n == "A@9606@1"⟩

/-- Claim C4, counterexample: with `force = true` the single-taxon
pipeline deletes the taxon's genome directory but leaves the
weight-store (annotation) directory in place — the weight store is only
deleted by the batch orchestrator, not by addTaxon.py. -/
theorem claim4_counterexample :
    (addTaxonForceDelete true "A@9606@1" sampleStore).weight "A@9606@1" = true ∧
    (addTaxonForceDelete true "A@9606@1" sampleStore).genome "A@9606@1" = false := by
  constructor <;> rfl

/-- Claim C4 as amended: with `force = true` the single-taxon pipeline
deletes the prior genome-store directory and the prior BLAST-store
directory of the given taxon; its weight-store (annotation) directory
is untouched (that deletion is performed only by the batch
orchestrator), and directories of every other taxon are unchanged. -/
theorem claim4_amended (spec : String) (st : StoreView) :
    (addTaxonForceDelete true spec st).genome spec = false ∧
    (addTaxonForceDelete true spec st).blast spec = false ∧
    (addTaxonForceDelete true spec st).weight = st.weight ∧
    ∀ n, n ≠ spec →
      (addTaxonForceDelete true spec st).genome n = st.genome n ∧
      (addTaxonForceDelete true spec st).blast n = st.blast n := by
  refine ⟨?_, ?_, rfl, ?_⟩
  · simp [addTaxonForceDelete]
  · simp [addTaxonForceDelete]
  · intro n hn
    constructor <;> simp [addTaxonForceDelete, hn]

/-- Witness for C4 as amended, at the sample store. -/
theorem claim4_amended_witness :
    (addTaxonForceDelete true "A@9606@1" sampleStore).genome "A@9606@1" = false ∧
    (addTaxonForceDelete true "A@9606@1" sampleStore).weight "A@9606@1" =
      sampleStore.weight "A@9606@1" ∧
    (addTaxonForceDelete true "A@9606@1" sampleStore).genome "B@2@2" =
      sampleStore.genome "B@2@2" := by
  have h := claim4_amended "A@9606@1" sampleStore
  exact ⟨h.1, congrFun h.2.2.1 "A@9606@1", (h.2.2.2 "B@2@2" (by decide)).1⟩

/-- A batch configuration with both sanitize flags set and one valid
manifest entry. -/
def bcBoth : BatchCfg :=
  ⟨true, ["f1.fa"], [("f1.fa", "HUMAN@9606@1")], [], false, false, true, true⟩

/-- Claim C6, counterexample: the batch orchestrator performs no
conflict check on `--replace`/`--delete`: with both flags set it does
not terminate pre-flight but creates the root store directories and
dispatches the per-taxon job (forwarding both flags to the child, which
then fails on its own). -/
theorem claim6_counterexample :
    addTaxaRun bcBoth =
      ([BAction.mkdirGenomeRoot, BAction.mkdirWeightRoot,
        BAction.runJob "f1.fa" "HUMAN@9606@1" true true], none) := by
  rfl

/-- Claim C6 as amended: supplying both Replace and Delete is fatal
pre-flight in the single-taxon pipeline — it exits with the
configuration error before any action (no taxonomy query, no deletion,
no directory creation, no file write, no collaborator call) — but the
batch orchestrator performs no such check: whatever its flags, it
proceeds to create the root store directories first. -/
theorem claim6_amended (c : Cfg) (d0 : DirState) (dex bex : Bool)
    (bc : BatchCfg) (h1 : c.fastaExists = true) (h2 : c.replace = true)
    (h3 : c.delete = true) (hm : bc.mappingExists = true) :
    addTaxonRun c d0 dex bex = ([], some .optConflict) ∧
    (addTaxaRun bc).1.take 2 =
      [BAction.mkdirGenomeRoot, BAction.mkdirWeightRoot] := by
  constructor
  · rw [addTaxonRun]
    simp [h1, checkOptConflict, h2, h3]
  · rw [addTaxaRun]
    simp only [hm, not_true, if_false]
    split
    · exact List.take_left' rfl
    · rw [List.append_assoc]
      exact List.take_left' rfl

/-- A single-taxon configuration with both sanitize flags set. -/
def cfgBoth : Cfg :=
  ⟨true, [("a".toList, "MKV".toList)], "HUMAN".toList, none, "9606".toList,
   false, true, true, false, false⟩

/-- Witness for C6 as amended, at concrete configurations. -/
theorem claim6_amended_witness :
    addTaxonRun cfgBoth ⟨none, none⟩ false false = ([], some .optConflict) ∧
    (addTaxaRun bcBoth).1.take 2 =
      [BAction.mkdirGenomeRoot, BAction.mkdirWeightRoot] :=
  claim6_amended cfgBoth ⟨none, none⟩ false false bcBoth rfl rfl rfl rfl

/-- Without `force`, the job-collection loop never deletes anything. -/
theorem batchCollect_no_rm (noAnno : Bool) (gf : List String)
    (nd : List (String × String)) (fs : List String) :
    (batchCollect false noAnno gf nd fs).1 = [] := by
  induction fs with
  | nil => rfl
  | cons f rest ih =>
    simp only [batchCollect]
    rcases h : nd.lookup f with _ | key
    · simpa [h] using ih
    · simp only [h]
      by_cases hg : key ∈ gf
      · simp [hg, ih]
      · simp [hg, ih]

/-- Without `force`, every present input file whose key is already in
the pre-existing store listing ends up in `dupList`. -/
theorem batchCollect_dup_mem (noAnno : Bool) (gf : List String)
    (nd : List (String × String)) (fs : List String) (f K : String)
    (hf : f ∈ fs) (hl : nd.lookup f = some K) (hK : K ∈ gf) :
    (f, K) ∈ (batchCollect false noAnno gf nd fs).2.1 := by
  induction fs with
  | nil => simp at hf
  | cons g rest ih =>
    rcases List.mem_cons.1 hf with rfl | hf'
    · simp [batchCollect, hl, hK]
    · have hmem := ih hf'
      simp only [batchCollect]
      rcases h : nd.lookup g with _ | key
      · simpa [h] using hmem
      · simp only [h]
        by_cases hg : key ∈ gf
        · simp [hg, hmem]
        · simpa [hg] using hmem

/-- Claim C1, counterexample: a manifest with two rows (existing input
files) that resolve to the same serialized taxon key, `force = false`,
and a store that does not yet contain that key: the batch does NOT
abort — no collision is recorded (the check only compares against the
pre-existing store listing) and both entries are dispatched. -/
theorem claim1_counterexample :
    addTaxaRun ⟨true, ["f1.fa", "f2.fa"],
        [("f1.fa", "TAXON@1@1"), ("f2.fa", "TAXON@1@1")], [],
        false, false, false, false⟩ =
      ([BAction.mkdirGenomeRoot, BAction.mkdirWeightRoot,
        BAction.runJob "f1.fa" "TAXON@1@1" false false,
        BAction.runJob "f2.fa" "TAXON@1@1" false false], none) := by
  rfl

/-- Claim C1 as amended: when the shared serialized taxon key of two
manifest rows (whose input files are present) already exists in the
genome store and `force` is false, the batch aborts before dispatching
any job, reporting a duplicate list that contains both filenames, and
deletes nothing (the only actions taken are the `exist_ok` creations of
the two root store directories).  Rows sharing a key that is absent
from the store are not detected (see the counterexample). -/
theorem claim1_amended (c : BatchCfg) (f1 f2 K : String)
    (hm : c.mappingExists = true) (hforce : c.force = false)
    (h1 : f1 ∈ c.faFiles) (h2 : f2 ∈ c.faFiles) (hne : f1 ≠ f2)
    (hl1 : c.nameDict.lookup f1 = some K)
    (hl2 : c.nameDict.lookup f2 = some K)
    (hK : K ∈ c.genomeFiles) :
    ∃ dups,
      addTaxaRun c = ([BAction.mkdirGenomeRoot, BAction.mkdirWeightRoot],
        some (.dupAbort dups)) ∧ (f1, K) ∈ dups ∧ (f2, K) ∈ dups := by
  have hr1 : (batchCollect c.force c.noAnno c.genomeFiles c.nameDict
      c.faFiles).1 = [] := by
    rw [hforce]
    exact batchCollect_no_rm c.noAnno c.genomeFiles c.nameDict c.faFiles
  have hd1 : (f1, K) ∈ (batchCollect c.force c.noAnno c.genomeFiles
      c.nameDict c.faFiles).2.1 := by
    rw [hforce]
    exact batchCollect_dup_mem c.noAnno c.genomeFiles c.nameDict c.faFiles
      f1 K h1 hl1 hK
  have hd2 : (f2, K) ∈ (batchCollect c.force c.noAnno c.genomeFiles
      c.nameDict c.faFiles).2.1 := by
    rw [hforce]
    exact batchCollect_dup_mem c.noAnno c.genomeFiles c.nameDict c.faFiles
      f2 K h2 hl2 hK
  refine ⟨(batchCollect c.force c.noAnno c.genomeFiles c.nameDict
    c.faFiles).2.1, ?_, hd1, hd2⟩
  rw [addTaxaRun]
  simp only [hm, not_true, if_false]
  rw [if_pos ⟨List.ne_nil_of_mem hd1, by rw [hforce]; simp⟩]
  rw [hr1, List.append_nil]

/-- Witness for C1 as amended, at a concrete batch configuration whose
store already holds the shared key. -/
theorem claim1_amended_witness :
    ∃ dups,
      addTaxaRun ⟨true, ["f1.fa", "f2.fa"],
          [("f1.fa", "TAXON@1@1"), ("f2.fa", "TAXON@1@1")], ["TAXON@1@1"],
          false, false, false, false⟩ =
        ([BAction.mkdirGenomeRoot, BAction.mkdirWeightRoot],
         some (.dupAbort dups)) ∧
      ("f1.fa", "TAXON@1@1") ∈ dups ∧ ("f2.fa", "TAXON@1@1") ∈ dups :=
  claim1_amended _ "f1.fa" "f2.fa" "TAXON@1@1" rfl rfl (by decide) (by decide)
    (by decide) rfl rfl (by decide)

end FDog
